import Mathlib

/-!
Verification development for the TwitamaModoki synchronization core.

The definitions below are a shallow embedding of the TypeScript sources:
`src/types/index.ts`, `src/background/index.ts`, `src/config/xSelectors.ts`,
`src/hooks/useIframeUrlSync.ts`, the column-type utility and the content
filter engine.  Strings are modelled as Lean `String` / `List Char`;
JavaScript `null`/`undefined` become `Option`; the asynchronous retry
chains are modelled by their eventual deterministic effect together with
the list of timer delays they schedule.
-/

set_option maxRecDepth 8192

namespace TwitamaModoki

/-- Predicate `startsL pre s` holds when `pre` is a prefix of `s` (used to embed
`String.prototype.startsWith` and anchored regular expressions). -/
def startsL : List Char → List Char → Bool
  | [], _ => true
  | _ :: _, [] => false
  | a :: pre, b :: s => if a = b then startsL pre s else false

/-- Substring containment on character lists (embeds `String.prototype.includes`
and unanchored regular-expression search for literal patterns). -/
def containsL (sub s : List Char) : Bool :=
  s.tails.any (fun t => startsL sub t)

/-- Embedding of `String.prototype.includes` on Lean strings. -/
def containsStr (s sub : String) : Bool :=
  containsL sub.data s.data

/-- Lower-casing of a whole string, character by character (embeds
`String.prototype.toLowerCase` for the ASCII data these programs compare). -/
def toLowerStr (s : String) : String :=
  String.mk (s.data.map Char.toLower)

/-- Case-insensitive substring test: the embedding of testing an
unanchored `/literal/i` JavaScript regular expression against a string. -/
def containsCI (hay pat : String) : Bool :=
  containsL (pat.data.map Char.toLower) (hay.data.map Char.toLower)

/-- JavaScript whitespace predicate (the character class trimmed by
`String.prototype.trim`). -/
def jsIsWs (c : Char) : Bool :=
  (9 ≤ c.toNat && c.toNat ≤ 13) || c.toNat = 32 || c.toNat = 160 || c.toNat = 0x1680 ||
  (0x2000 ≤ c.toNat && c.toNat ≤ 0x200a) || c.toNat = 0x2028 || c.toNat = 0x2029 ||
  c.toNat = 0x202f || c.toNat = 0x205f || c.toNat = 0x3000 || c.toNat = 0xfeff

/-- Embedding of `String.prototype.trim` on character lists. -/
def jsTrim (s : List Char) : List Char :=
  ((s.dropWhile jsIsWs).reverse.dropWhile jsIsWs).reverse

/-- The character class matched by the JavaScript regular-expression dot
(`.`): any character except a line terminator. -/
def jsDotB (c : Char) : Bool :=
  !(c.toNat = 10 || c.toNat = 13 || c.toNat = 0x2028 || c.toNat = 0x2029)

/-- The character class `[a-zA-Z0-9_]` used by both URL classifiers for
profile handles. -/
def isWordChar (c : Char) : Bool :=
  (decide ('a' ≤ c) && decide (c ≤ 'z')) || (decide ('A' ≤ c) && decide (c ≤ 'Z')) ||
  (decide ('0' ≤ c) && decide (c ≤ '9')) || c = '_'

/-- ASCII letter test (scheme start characters of a URL). -/
def isAsciiAlpha (c : Char) : Bool :=
  (decide ('a' ≤ c) && decide (c ≤ 'z')) || (decide ('A' ≤ c) && decide (c ≤ 'Z'))

/-- Characters allowed after the first one in a URL scheme. -/
def isSchemeChar (c : Char) : Bool :=
  isAsciiAlpha c || (decide ('0' ≤ c) && decide (c ≤ '9')) || c = '+' || c = '-' || c = '.'

/-- Hexadecimal digit characters, used by the percent-encoding model. -/
def hexDigitChar (n : Nat) : Char :=
  match n with
  | 0 => '0' | 1 => '1' | 2 => '2' | 3 => '3' | 4 => '4' | 5 => '5' | 6 => '6' | 7 => '7'
  | 8 => '8' | 9 => '9' | 10 => 'A' | 11 => 'B' | 12 => 'C' | 13 => 'D' | 14 => 'E' | _ => 'F'

/-- Characters the URL-parser model keeps verbatim in a serialized
pathname: printable ASCII outside the path percent-encode set. -/
def keepPathChar (c : Char) : Bool :=
  decide (0x20 < c.toNat) && decide (c.toNat < 0x7f) &&
  !(c = '"' || c = '<' || c = '>' || c = '^' || c = '|' ||
    c = Char.ofNat 0x60 || c = Char.ofNat 0x7b || c = Char.ofNat 0x7d)

/-- Percent-encoding of one character for the serialized pathname.  The
exact escape expansion of multi-byte characters is immaterial to every
path pattern in the sources (an escape is `%` plus hexadecimal digits,
none of which is a line terminator or a path delimiter). -/
def encPathChar (c : Char) : List Char :=
  if keepPathChar c then [c]
  else ['%', hexDigitChar (c.toNat / 16 % 16), hexDigitChar (c.toNat % 16)]

/-- Serialized-pathname encoding of a raw path. -/
def encodePath (l : List Char) : List Char :=
  (l.map encPathChar).flatten

/-- The parsed parts of a URL that the classifiers read. -/
structure UrlParts where
  pathname : List Char
  search : List Char
deriving DecidableEq

/-- WHATWG input preprocessing: strip leading and trailing C0 controls and
spaces, then remove every ASCII tab or newline. -/
def stripControls (s : List Char) : List Char :=
  (((s.dropWhile (fun c => c.toNat ≤ 32)).reverse.dropWhile
      (fun c => c.toNat ≤ 32)).reverse).filter
    (fun c => !(c.toNat = 9 || c.toNat = 10 || c.toNat = 13))

/-- Modelled from the spec: the platform WHATWG `new URL` constructor used
by `shouldRecordUrl`, `getTitleFromUrl` and `getColumnTypeFromUrl` (the
platform URL parser is not part of the repository).  The model covers the
behaviour those callers depend on: tabs and newlines are removed from the
input, a scheme and a non-empty `//` authority are required, the
serialized pathname runs from the first `/` after the authority up to `?`
or `#` with characters outside printable ASCII percent-encoded, and a
parse failure yields `none` (the constructor throws, which every caller
catches).  Opaque-path URLs and dot-segment normalization are outside the
model. -/
def parseUrl (url : String) : Option UrlParts :=
  match stripControls url.data with
  | [] => none
  | c :: rest =>
    if isAsciiAlpha c then
      match (rest.span isSchemeChar).2 with
      | ':' :: '/' :: '/' :: r2 =>
        let auth := (r2.span (fun c => !(c = '/' || c = '?' || c = '#')))
        if auth.1 = [] then none
        else
          match auth.2 with
          | '/' :: _ =>
            let pq := auth.2.span (fun c => !(c = '?' || c = '#'))
            some ⟨encodePath pq.1,
              match pq.2 with
              | '?' :: q => q.takeWhile (fun c => !(c = '#'))
              | _ => []⟩
          | '?' :: q => some ⟨['/'], q.takeWhile (fun c => !(c = '#'))⟩
          | _ => some ⟨['/'], []⟩
      | _ => none
    else none

/-- Split a character list at every occurrence of a separator. -/
def splitOnChar (sep : Char) : List Char → List (List Char)
  | [] => [[]]
  | c :: rest =>
    if c = sep then [] :: splitOnChar sep rest
    else
      match splitOnChar sep rest with
      | h :: t => (c :: h) :: t
      | [] => [[c]]

/-- Modelled from the spec: `URLSearchParams.get` as used by
`getTitleFromUrl` for the `q` keyword (platform code, not in the
repository).  Percent-decoding of the value is outside the model; no
claim depends on it. -/
def searchParamGet (query : List Char) (key : List Char) : Option String :=
  match (splitOnChar '&' query).find? (fun pr => pr.takeWhile (fun c => !(c = '=')) = key) with
  | some pr =>
    some (String.mk ((pr.dropWhile (fun c => !(c = '='))).drop 1))
  | none => none

/-! ## `src/types/index.ts` — record whitelist and URL-derived titles -/

/-- The pattern `/^\/messages(\/.*)?$/` from `shouldRecordUrl`. -/
def reMessages (p : List Char) : Bool :=
  decide (p = "/messages".data) || (startsL "/messages/".data p && (p.drop 10).all jsDotB)

/-- The pattern `/^\/i\/lists\/.+$/` shared by `shouldRecordUrl` and
`getColumnTypeFromUrl`. -/
def reLists (p : List Char) : Bool :=
  startsL "/i/lists/".data p && decide (9 < p.length) && (p.drop 9).all jsDotB

/-- The pattern `/^\/explore(\/.*)?$/` from `shouldRecordUrl`. -/
def reExplore (p : List Char) : Bool :=
  decide (p = "/explore".data) || (startsL "/explore/".data p && (p.drop 9).all jsDotB)

/-- The pattern `/^\/i\/communities\/.+$/` shared by both classifiers. -/
def reCommunities (p : List Char) : Bool :=
  startsL "/i/communities/".data p && decide (15 < p.length) && (p.drop 15).all jsDotB

/-- The pattern `/^\/[a-zA-Z0-9_]{1,15}$/` shared by both classifiers. -/
def reHandle (p : List Char) : Bool :=
  match p with
  | c :: rest =>
    c = '/' && decide (1 ≤ rest.length) && decide (rest.length ≤ 15) && rest.all isWordChar
  | [] => false

/-- The ordered whitelist test of `shouldRecordUrl` applied to a parsed
pathname (`allowedPatterns.some (pattern => pattern.test pathname)`). -/
def shouldRecordPath (p : List Char) : Bool :=
  decide (p = "/home".data) || decide (p = "/notifications".data) || reMessages p ||
  decide (p = "/search".data) || reLists p || reExplore p ||
  decide (p = "/i/bookmarks".data) || reCommunities p || reHandle p

/-- Function `shouldRecordUrl` from `src/types/index.ts`: whitelist predicate over
the parsed pathname; a URL the parser rejects is not recorded. -/
def shouldRecordUrl (url : String) : Bool :=
  match parseUrl url with
  | some parts => shouldRecordPath parts.pathname
  | none => false

/-- The pattern `/^\/[^/]+$/` used by the profile branch of
`getTitleFromUrl`. -/
def reOneSegment (p : List Char) : Bool :=
  match p with
  | '/' :: rest => decide (1 ≤ rest.length) && rest.all (fun c => !(c = '/'))
  | _ => false

/-- Function `getTitleFromUrl` from `src/types/index.ts`: deterministic URL-derived
default column title. -/
def getTitleFromUrl (url : String) : String :=
  match parseUrl url with
  | none => "X"
  | some parts =>
    let p := parts.pathname
    if p = "/home".data then "Home"
    else if p = "/notifications".data then "Notifications"
    else if p = "/messages".data ∨ startsL "/messages/".data p then "DM"
    else if p = "/search".data then
      match searchParamGet parts.search "q".data with
      | some keyword => if keyword = "" then "🔍Search" else "🔍" ++ keyword
      | none => "🔍Search"
    else if containsL "/i/lists/".data p then "List"
    else if p = "/explore".data ∨ startsL "/explore/".data p then "Explore"
    else if reOneSegment p then "@" ++ String.mk (p.drop 1)
    else "X"

/-- Structure `Column` from `src/types/index.ts` restricted to the fields the
navigation watcher reads (`config` carries no data the watcher uses). -/
structure Column where
  id : String
  title : String
  currentUrl : String
deriving DecidableEq

/-! ## Column-type utility (`getColumnTypeFromUrl`) -/

/-- Enumeration `ColumnType` from the column-type utility module. -/
inductive ColumnType where
  | home | notifications | messages | search | list | explore | bookmarks | community
  | userProfile | unknown
deriving DecidableEq

/-- The if-chain of `getColumnTypeFromUrl` applied to a parsed pathname. -/
def getColumnTypeFromPath (p : List Char) : ColumnType :=
  if p = "/home".data then .home
  else if p = "/notifications".data then .notifications
  else if p = "/messages".data ∨ startsL "/messages/".data p then .messages
  else if p = "/search".data then .search
  else if reLists p then .list
  else if p = "/explore".data ∨ startsL "/explore/".data p then .explore
  else if p = "/i/bookmarks".data then .bookmarks
  else if reCommunities p then .community
  else if reHandle p then .userProfile
  else .unknown

/-- Function `getColumnTypeFromUrl` from the column-type utility: route kind of a
URL, `unknown` when the URL fails to parse. -/
def getColumnTypeFromUrl (url : String) : ColumnType :=
  match parseUrl url with
  | some parts => getColumnTypeFromPath parts.pathname
  | none => .unknown

/-! ## `src/background/index.ts` — rate-limit state tracker -/

/-- Enumeration `RateLimitCategory` from `src/types/index.ts`. -/
inductive RateLimitCategory where
  | tweetPost | userTimeline | homeLatestTimeline | listTweets | searchLatest
  | dmFetch | accountSettings | badgeCount
deriving DecidableEq

/-- Structure `RateLimitInfo` from `src/types/index.ts`. -/
structure RateLimitInfo where
  limit : Option Int
  remaining : Option Int
  resetAt : Option Int
  lastUpdated : Option Int
deriving DecidableEq

/-- The per-category rate-limit state map. -/
def RateLimitState := RateLimitCategory → RateLimitInfo

/-- Constant `RATE_LIMIT_PATTERNS` from `src/background/index.ts`; every pattern in
the source is an unanchored case-insensitive literal, embedded as the
literal string it matches. -/
def RATE_LIMIT_PATTERNS : List (RateLimitCategory × List String) :=
  [(.tweetPost, ["CreateTweet", "TweetCreate"]),
   (.userTimeline, ["UserTweets", "UserTweetsAndReplies"]),
   (.homeLatestTimeline, ["HomeLatestTimeline"]),
   (.listTweets, ["ListLatestTweetsTimeline", "ListTweets"]),
   (.searchLatest, ["SearchTimeline"]),
   (.dmFetch, ["DmInbox", "DmConversation", "DmHistory"]),
   (.accountSettings, ["/account/settings.json"]),
   (.badgeCount, ["badge_count/badge_count.json"])]

/-- Function `detectRateLimitCategory` from `src/background/index.ts`. -/
def detectRateLimitCategory (url : String) : Option RateLimitCategory :=
  (RATE_LIMIT_PATTERNS.find? (fun rule => rule.2.any (fun pat => containsCI url pat))).map
    (fun rule => rule.1)

/-- The spec-worded classifier: scan the ordered entry list and return the
category of the first entry one of whose patterns matches the target. -/
def firstMatchingCategory : List (RateLimitCategory × List String) → String → Option RateLimitCategory
  | [], _ => none
  | (cat, pats) :: rest, url =>
    if pats.any (fun pat => containsCI url pat) then some cat
    else firstMatchingCategory rest url

/-- One qualifying network completion as seen by the
`onHeadersReceived` listener: the request target plus the three numeric
rate-limit headers already extracted by `getHeaderValue` (absent or
non-numeric headers are `none`). -/
structure RateLimitEvent where
  url : String
  limit : Option Int
  remaining : Option Int
  resetAt : Option Int

/-- Merge `observed ?? previous` — the per-field merge of the quota merger. -/
def mergeField (observed prior : Option Int) : Option Int :=
  match observed with
  | some v => some v
  | none => prior

/-- The body of the `onHeadersReceived` listener in `setupRateLimitMonitor`
(`src/background/index.ts` lines 79–122): classify, drop header-less
events, merge field-wise, suppress no-change writes, otherwise overwrite
the category record, stamp `lastUpdated` with the current instant and
persist.  The returned `Bool` is true exactly when
`chrome.storage.local.set` is called. -/
def rateLimitStep (now : Int) (st : RateLimitState) (ev : RateLimitEvent) :
    RateLimitState × Bool :=
  match detectRateLimitCategory ev.url with
  | none => (st, false)
  | some category =>
    if ev.limit = none ∧ ev.remaining = none ∧ ev.resetAt = none then (st, false)
    else if (st category).limit = mergeField ev.limit (st category).limit ∧
        (st category).remaining = mergeField ev.remaining (st category).remaining ∧
        (st category).resetAt = mergeField ev.resetAt (st category).resetAt then (st, false)
    else
      (fun c => if c = category then
          ⟨mergeField ev.limit (st category).limit,
           mergeField ev.remaining (st category).remaining,
           mergeField ev.resetAt (st category).resetAt, some now⟩
        else st c, true)

/-! ## `src/config/xSelectors.ts` — landmark-text name extraction -/

/-- Extractor `LIST_NAME_CONFIG.getListName`: input is the `textContent` of the
`TopNavBar` landmark (`none` when the element is absent; an empty
`textContent` is falsy and also yields `null`); the result is the trimmed
text, cut before the first literal `@` and re-trimmed when one occurs. -/
def getListName (raw : Option String) : Option String :=
  match raw with
  | none => none
  | some txt =>
    if txt = "" then none
    else
      let t := jsTrim txt.data
      if t.contains '@' then some (String.mk (jsTrim (t.takeWhile (fun c => !(c = '@')))))
      else some (String.mk t)

/-- Extractor `COMMUNITY_NAME_CONFIG.getCommunityName`: same landmark and same
text processing as the list-name extractor. -/
def getCommunityName (raw : Option String) : Option String :=
  match raw with
  | none => none
  | some txt =>
    if txt = "" then none
    else
      let t := jsTrim txt.data
      if t.contains '@' then some (String.mk (jsTrim (t.takeWhile (fun c => !(c = '@')))))
      else some (String.mk t)

/-- Extractor `USER_PROFILE_NAME_CONFIG.getUserName`: input is the `textContent` of
the `UserName` landmark; the result keeps the portion from the first `@`
onward (including it), trimmed; no `@` yields `null`. -/
def getUserName (raw : Option String) : Option String :=
  match raw with
  | none => none
  | some txt =>
    if txt = "" then none
    else
      let t := jsTrim txt.data
      if t.contains '@' then some (String.mk (jsTrim (t.dropWhile (fun c => !(c = '@')))))
      else none

/-! ## `src/hooks/useIframeUrlSync.ts` — navigation watcher and title resolver -/

/-- The three refs held by `useIframeUrlSync`: the last seen URL, the last
recorded URL, and the resolved-name memory cache (`resolvedNamesRef`). -/
structure WatcherState where
  lastUrl : String
  lastRecorded : String
  resolvedNames : List (String × String)
deriving DecidableEq

/-- Embedding of `Map.prototype.get` on the resolved-name cache. -/
def lookupName (cache : List (String × String)) (url : String) : Option String :=
  (cache.find? (fun e => e.1 = url)).map (fun e => e.2)

/-- Embedding of `Map.prototype.set` on the resolved-name cache. -/
def insertName (cache : List (String × String)) (url name : String) :
    List (String × String) :=
  (url, name) :: cache.filter (fun e => !(e.1 = url))

/-- JavaScript truthiness of an optional string (`if (cachedName)` treats
both `undefined` and the empty string as absent). -/
def truthyName (o : Option String) : Option String :=
  match o with
  | some s => if s = "" then none else some s
  | none => none

/-- The embedded document as the watcher observes it: the `textContent` of
the two landmark elements at the k-th DOM-extraction attempt of the
current resolution (the DOM mutates between timer-delayed attempts). -/
structure IframeDoc where
  topNavBarText : Nat → Option String
  userNameText : Nat → Option String

/-- The environment of one `checkUrl` invocation: the embedded view's
current location (`none` models a cross-context access failure or an
absent content window, which the `try`/`catch` swallows), the persisted
column list, the column id, and the embedded document (`none` when
`contentWindow?.document` is unavailable). -/
structure CheckEnv where
  currentUrl : Option String
  columns : List Column
  columnId : Option String
  doc : Option IframeDoc

/-- The retry loop shared by `tryGetListName`, `tryGetCommunityName` and
`tryGetUserName`, run to completion: attempts are numbered from 1 with
`maxAttempts = 5`; a falsy extraction result at attempt `k < 5` schedules
a `k * 300` ms timer and retries.  Returns the first truthy extracted
name (or `none` after exhaustion) and the list of retry delays. -/
def retryChain (extract : Option String → Option String) (dom : Nat → Option String) :
    Nat → Nat → Option String × List Nat
  | _, 0 => (none, [])
  | attempt, fuel + 1 =>
    match truthyName (extract (dom attempt)) with
    | some name => (some name, [])
    | none =>
      if attempt < 5 then
        let r := retryChain extract dom (attempt + 1) fuel
        (r.1, attempt * 300 :: r.2)
      else (none, [])

/-- Outcome of a whole DOM resolution: the delivered title, the name
written into the memory cache (on success), and every timer delay
scheduled, starting with the initial 500 ms wait. -/
structure ResolveOutcome where
  title : String
  cacheName : Option String
  delays : List Nat
deriving DecidableEq

/-- Run a name-extraction retry chain: initial 500 ms delay, at most 5
attempts, URL-derived fallback title on exhaustion. -/
def runNameRetry (extract : Option String → Option String) (dom : Nat → Option String)
    (fallback : String) : ResolveOutcome :=
  let r := retryChain extract dom 1 5
  ⟨r.1.getD fallback, r.1, 500 :: r.2⟩

/-- The persisted-column lookup of a name branch: requires a truthy
`columnId`, a column with that id, a stored title different from the
branch placeholder, and a stored URL equal to the URL being resolved. -/
def storageLookup (env : CheckEnv) (placeholder u : String) : Option String :=
  match env.columnId with
  | some cid =>
    if cid = "" then none
    else
      match env.columns.find? (fun c => c.id = cid) with
      | some col =>
        if ¬ col.title = placeholder ∧ col.currentUrl = u then some col.title else none
      | none => none
  | none => none

/-- One name-resolution branch of `checkUrl` (list, community or
profile): memory cache, then persisted column title (seeding the cache),
then the DOM retry chain when the document is reachable; `none` means the
branch fell through because `contentWindow?.document` was unavailable. -/
def namedResolve (env : CheckEnv) (st : WatcherState) (u placeholder : String)
    (extract : Option String → Option String) (domText : IframeDoc → Nat → Option String)
    (fallback : String) : Option (WatcherState × String × List Nat) :=
  match truthyName (lookupName st.resolvedNames u) with
  | some cached => some (st, cached, [])
  | none =>
    match storageLookup env placeholder u with
    | some t => some ({ st with resolvedNames := insertName st.resolvedNames u t }, t, [])
    | none =>
      match env.doc with
      | some d =>
        let out := runNameRetry extract (domText d) fallback
        some (match out.cacheName with
          | some nm => { st with resolvedNames := insertName st.resolvedNames u nm }
          | none => st, out.title, out.delays)
      | none => none

/-- The pattern `/^https:\/\/x\.com\/[a-zA-Z0-9_]{1,15}$/` guarding the
profile branch of `checkUrl`. -/
def profileUrlRe (u : String) : Bool :=
  startsL "https://x.com/".data u.data &&
  decide (1 ≤ (u.data.drop 14).length) && decide ((u.data.drop 14).length ≤ 15) &&
  (u.data.drop 14).all isWordChar

/-- The list branch guard and resolution of `checkUrl`. -/
def listBranch (env : CheckEnv) (st : WatcherState) (u fallback : String) :
    Option (WatcherState × String × List Nat) :=
  if containsStr u "/i/lists/" then
    namedResolve env st u "リスト" getListName (fun d => d.topNavBarText) fallback
  else none

/-- The community branch guard and resolution of `checkUrl`. -/
def communityBranch (env : CheckEnv) (st : WatcherState) (u fallback : String) :
    Option (WatcherState × String × List Nat) :=
  if containsStr u "/i/communities/" then
    namedResolve env st u "コミュニティ" getCommunityName (fun d => d.topNavBarText) fallback
  else none

/-- The profile branch guard and resolution of `checkUrl`. -/
def profileBranch (env : CheckEnv) (st : WatcherState) (u fallback : String) :
    Option (WatcherState × String × List Nat) :=
  if profileUrlRe u then
    namedResolve env st u "ユーザープロフィール" getUserName (fun d => d.userNameText) fallback
  else none

/-- Resolution of a newly recorded URL: the three name branches in source
order, falling back to the synchronous URL-derived title delivery. -/
def recordResolve (env : CheckEnv) (st : WatcherState) (u fallback : String) :
    WatcherState × String × List Nat :=
  match listBranch env st u fallback with
  | some r => r
  | none =>
    match communityBranch env st u fallback with
    | some r => r
    | none =>
      match profileBranch env st u fallback with
      | some r => r
      | none => (st, fallback, [])

/-- Result of one `checkUrl` invocation: the updated refs, the
`onUrlChange` deliveries it causes (the asynchronous retry chain is
accounted for by its eventual delivery), and the timer delays it
schedules. -/
structure CheckResult where
  state : WatcherState
  emits : List (String × String)
  delays : List Nat

/-- Function `checkUrl` from `useIframeUrlSync` (lines 43–220), run to completion:
last-seen-URL guard, whitelist check, last-recorded-URL guard, then the
branch resolution; every failure of cross-context access is swallowed. -/
def checkUrl (env : CheckEnv) (st : WatcherState) : CheckResult :=
  match env.currentUrl with
  | none => ⟨st, [], []⟩
  | some u =>
    if u = "" then ⟨st, [], []⟩
    else if u = st.lastUrl then ⟨st, [], []⟩
    else
      let st1 : WatcherState := { st with lastUrl := u }
      if shouldRecordUrl u then
        if u = st1.lastRecorded then ⟨st1, [], []⟩
        else
          let st2 : WatcherState := { st1 with lastRecorded := u }
          let r := recordResolve env st2 u (getTitleFromUrl u)
          ⟨r.1, [(u, r.2.1)], r.2.2⟩
      else ⟨st1, [], []⟩

/-! ## Content filter engine (`applyFilters` / `matchesFilter`) -/

/-- Structure `FilterRule` from `src/types/index.ts`. -/
structure FilterRule where
  id : String
  name : String
  enabled : Bool
  screenName : Option String
  textPattern : Option String
  isRetweet : Option Bool
  hasMedia : Option Bool
deriving DecidableEq

/-- One content item (`article[data-testid="tweet"]`) as the filter engine
observes it through the DOM: the two candidate author links, the body
text (`none` when the `tweetText` element is absent), the retweet and
media markers, and the visibility and processed-marker state the engine
mutates. -/
structure Tweet where
  firstLinkHref : Option String
  nameBlockLinkHref : Option String
  bodyText : Option String
  hasSocialContext : Bool
  hasMediaMarker : Bool
  hidden : Bool
  processed : Bool
deriving DecidableEq

/-- Expression `href.replace(/^\//, "").split("/")[0]`: the screen name extracted
from a user link. -/
def hrefScreenName (href : String) : String :=
  String.mk ((match href.data with
    | '/' :: rest => rest
    | l => l).takeWhile (fun c => !(c = '/')))

/-- Abstract syntax of the regular-expression subset the embedding
models: literal characters, grouping, concatenation and alternation. -/
inductive Rx where
  | eps : Rx
  | chr : Char → Rx
  | cat : Rx → Rx → Rx
  | alt : Rx → Rx → Rx
deriving DecidableEq

/-- All remainders of `s` after consuming a match of `r` at its front. -/
def rxMatchAt : Rx → List Char → List (List Char)
  | .eps, s => [s]
  | .chr _, [] => []
  | .chr c, c2 :: s => if c = c2 then [s] else []
  | .cat a b, s => ((rxMatchAt a s).map (fun t => rxMatchAt b t)).flatten
  | .alt a b, s => rxMatchAt a s ++ rxMatchAt b s

/-- Embedding of `RegExp.prototype.test`: an unanchored match at any position. -/
def rxTest (r : Rx) (s : List Char) : Bool :=
  s.tails.any (fun t => !(rxMatchAt r t).isEmpty)

/-- Metacharacters outside the modelled regular-expression subset. -/
def regexSpecials : List Char :=
  ['*', '+', '?', '[', ']', '\\', '^', '$', '.', Char.ofNat 0x7b, Char.ofNat 0x7d]

mutual

/-- Alternation level of the regular-expression parser. -/
def parseRxAlt : Nat → List Char → Option (Rx × List Char)
  | 0, _ => none
  | fuel + 1, s =>
    match parseRxCat fuel s with
    | none => none
    | some (r, rest) =>
      match rest with
      | '|' :: rest2 =>
        match parseRxAlt fuel rest2 with
        | some (r2, rest3) => some (.alt r r2, rest3)
        | none => none
      | _ => some (r, rest)

/-- Concatenation level of the regular-expression parser. -/
def parseRxCat : Nat → List Char → Option (Rx × List Char)
  | 0, _ => none
  | fuel + 1, s =>
    match s with
    | [] => some (.eps, [])
    | ')' :: _ => some (.eps, s)
    | '|' :: _ => some (.eps, s)
    | _ =>
      match parseRxTerm fuel s with
      | none => none
      | some (t, rest) =>
        match parseRxCat fuel rest with
        | none => none
        | some (r, rest2) => some (.cat t r, rest2)

/-- Term level of the regular-expression parser: a parenthesized group or
a literal character. -/
def parseRxTerm : Nat → List Char → Option (Rx × List Char)
  | 0, _ => none
  | fuel + 1, s =>
    match s with
    | '(' :: rest =>
      match parseRxAlt fuel rest with
      | some (r, ')' :: rest2) => some (r, rest2)
      | _ => none
    | c :: rest => if c ∈ regexSpecials then none else some (.chr c, rest)
    | [] => none

end

/-- Modelled from the spec: `new RegExp(pattern)` (platform code),
restricted to the subset of `Rx`; an ill-formed pattern — in particular
one with unbalanced parentheses such as `((` — fails construction and
yields `none`, the embedding of the thrown `SyntaxError` that
`matchesFilter` catches. -/
def compileRegex (pat : String) : Option Rx :=
  match parseRxAlt (3 * pat.length + 9) pat.data with
  | some (r, []) => some r
  | _ => none

/-- The author link `matchesFilter` reads: a retweet's author is the
first linked account in the item, an original post's author the
name-block-scoped link. -/
def authorLink (post : Tweet) : Option String :=
  if post.hasSocialContext then post.firstLinkHref else post.nameBlockLinkHref

/-- The user-name block of `matchesFilter`: skipped when the rule's
screen name is undefined or empty (falsy); otherwise the retweet-aware
author link must exist and compare case-insensitively equal. -/
def screenNameCheck (post : Tweet) (filter : FilterRule) : Bool :=
  match filter.screenName with
  | none => true
  | some sn =>
    if sn = "" then true
    else
      match authorLink post with
      | some href => decide (toLowerStr (hrefScreenName href) = toLowerStr sn)
      | none => false

/-- The body-text block of `matchesFilter`: skipped when the pattern is
undefined or empty (falsy); a pattern that fails regular-expression
construction, or an absent body text, is a non-match. -/
def textPatternCheck (post : Tweet) (filter : FilterRule) : Bool :=
  match filter.textPattern with
  | none => true
  | some pat =>
    if pat = "" then true
    else
      match compileRegex pat with
      | some re =>
        match post.bodyText with
        | some text => rxTest re text.data
        | none => false
      | none => false

/-- The retweet tri-state block of `matchesFilter`. -/
def isRetweetCheck (post : Tweet) (filter : FilterRule) : Bool :=
  match filter.isRetweet with
  | none => true
  | some b => decide (b = post.hasSocialContext)

/-- The has-media tri-state block of `matchesFilter`. -/
def hasMediaCheck (post : Tweet) (filter : FilterRule) : Bool :=
  match filter.hasMedia with
  | none => true
  | some b => decide (b = post.hasMediaMarker)

/-- Function `matchesFilter` from the content script: the four early-return blocks
in source order; a rule matches only when every one of its defined (and
truthy) predicates matches. -/
def matchesFilter (post : Tweet) (filter : FilterRule) : Bool :=
  screenNameCheck post filter && textPatternCheck post filter &&
  isRetweetCheck post filter && hasMediaCheck post filter

/-- One pass of `filterPosts` over a single item: already-processed items
are skipped; otherwise the item is hidden when some active rule matches
and is marked processed regardless of the outcome. -/
def filterPost (activeFilters : List FilterRule) (post : Tweet) : Tweet :=
  if post.processed then post
  else
    { post with
      hidden := post.hidden || activeFilters.any (fun f => matchesFilter post f),
      processed := true }

/-- Function `applyFilters` restricted to one reconciliation pass over the current
items: keep only enabled rules, do nothing at all when none is enabled,
otherwise evaluate every item. -/
def applyFilters (filters : List FilterRule) (posts : List Tweet) : List Tweet :=
  let activeFilters := filters.filter (fun f => f.enabled)
  if activeFilters.isEmpty then posts
  else posts.map (filterPost activeFilters)

/-! ## Spec-side predicates -/

/-- The route shapes listed by the specification for the record
whitelist, stated in the spec's own terms: exact paths for
home/notifications/search/bookmarks, prefix shapes with optional
sub-paths for messages/explore, list and community templates with a
non-empty id, and a 1–15 character alphanumeric/underscore single path
segment.  The disjunction is unordered; the disjuncts are listed in the
source pattern-array order. -/
def SpecWhitelistShape (p : List Char) : Prop :=
  p = "/home".data ∨ p = "/notifications".data ∨
  (p = "/messages".data ∨ (∃ s, p = "/messages/".data ++ s)) ∨
  p = "/search".data ∨
  (∃ i, i ≠ [] ∧ p = "/i/lists/".data ++ i) ∨
  (p = "/explore".data ∨ (∃ s, p = "/explore/".data ++ s)) ∨
  p = "/i/bookmarks".data ∨
  (∃ i, i ≠ [] ∧ p = "/i/communities/".data ++ i) ∨
  (∃ h, 1 ≤ h.length ∧ h.length ≤ 15 ∧ (∀ c ∈ h, isWordChar c = true) ∧ p = '/' :: h)

/-- Printable-ASCII predicate satisfied by every character of a serialized
pathname produced by the URL-parser model. -/
def goodPathChar (c : Char) : Bool :=
  decide (0x20 < c.toNat) && decide (c.toNat < 0x7f)

/-- Concrete filter rule with only a text pattern, from the spec's
testable property for the content filter engine. -/
def spamRule : FilterRule := ⟨"r1", "spam filter", true, none, some "(spam|ad)", none, none⟩

/-- Concrete unprocessed item whose body text contains "spam". -/
def postSpam : Tweet := ⟨none, some "/alice", some "this is spam indeed", false, false, false, false⟩

/-- Concrete unprocessed item whose body text contains neither "spam" nor
"ad". -/
def postClean : Tweet := ⟨none, some "/alice", some "hello nice weather", false, false, false, false⟩

/-- Concrete list URL from the spec's end-to-end testable property. -/
def listUrl : String := "https://x.com/i/lists/12345"

/-- A persisted column whose stored title equals the URL-derived default
title for its list URL. -/
def storedDefaultColumn : Column := ⟨"c1", "List", listUrl⟩

/-- Environment in which the persisted column carries the URL-derived
default title while the embedded document exposes a real list name. -/
def storedDefaultEnv : CheckEnv :=
  ⟨some listUrl, [storedDefaultColumn], some "c1",
   some ⟨fun _ => some "Actual Name@user", fun _ => none⟩⟩

/-- Environment for the end-to-end list resolution with no cached name
and a landmark containing `My List@someuser`. -/
def listScrapeEnv : CheckEnv :=
  ⟨some listUrl, [], none, some ⟨fun _ => some "My List@someuser", fun _ => none⟩⟩

/-- Environment for the end-to-end list resolution in which every
DOM-extraction attempt fails. -/
def listFailEnv : CheckEnv :=
  ⟨some listUrl, [], none, some ⟨fun _ => none, fun _ => none⟩⟩

/-! ## Theorems -/

/-- C1: merging a newly observed partial quota reading into a category's
prior record replaces exactly the fields that are non-null in the reading
(`mergeField` yields the observed value on `some` and the prior value on
`none`) and, whenever the merged triple differs from the prior one, the
category's record is overwritten with the merged fields, stamped with the
current instant, and the state map is persisted (the step signals
"changed" by returning `true`). -/
theorem c1_quota_merge_replaces_nonnull (now : Int) (st : RateLimitState)
    (ev : RateLimitEvent) (cat : RateLimitCategory)
    (hcat : detectRateLimitCategory ev.url = some cat)
    (hchg : ¬ ((st cat).limit = mergeField ev.limit (st cat).limit ∧
               (st cat).remaining = mergeField ev.remaining (st cat).remaining ∧
               (st cat).resetAt = mergeField ev.resetAt (st cat).resetAt)) :
    rateLimitStep now st ev =
      (fun c => if c = cat then
          ⟨mergeField ev.limit (st cat).limit,
           mergeField ev.remaining (st cat).remaining,
           mergeField ev.resetAt (st cat).resetAt, some now⟩
        else st c, true) := by
  have hnull : ¬ (ev.limit = none ∧ ev.remaining = none ∧ ev.resetAt = none) := by
    intro h
    exact hchg (by rw [h.1, h.2.1, h.2.2]; exact ⟨rfl, rfl, rfl⟩)
  simp only [rateLimitStep, hcat]
  rw [if_neg hnull, if_neg hchg]

/-- C1 witness: merging the reading (ceiling `none`, remaining `5`, reset
`none`) into the prior record (ceiling `100`, remaining `50`, reset
`1700000000`) yields (`100`, `5`, `1700000000`), overwrites the record,
stamps it with the current instant and persists (signals "changed"). -/
theorem c1_quota_merge_replaces_nonnull_witness :
    detectRateLimitCategory "https://x.com/i/api/graphql/Ab/HomeLatestTimeline" =
      some RateLimitCategory.homeLatestTimeline ∧
    ¬ ((some 100 : Option Int) = mergeField none (some 100) ∧
       (some 50 : Option Int) = mergeField (some 5) (some 50) ∧
       (some 1700000000 : Option Int) = mergeField none (some 1700000000)) ∧
    rateLimitStep 1730000000
      (fun _ => (⟨some 100, some 50, some 1700000000, none⟩ : RateLimitInfo))
      ⟨"https://x.com/i/api/graphql/Ab/HomeLatestTimeline", none, some 5, none⟩ =
      (fun c => if c = RateLimitCategory.homeLatestTimeline then
          (⟨some 100, some 5, some 1700000000, some 1730000000⟩ : RateLimitInfo)
        else (⟨some 100, some 50, some 1700000000, none⟩ : RateLimitInfo), true) :=
  ⟨by decide, by decide,
    c1_quota_merge_replaces_nonnull 1730000000
      (fun _ => (⟨some 100, some 50, some 1700000000, none⟩ : RateLimitInfo))
      ⟨"https://x.com/i/api/graphql/Ab/HomeLatestTimeline", none, some 5, none⟩
      RateLimitCategory.homeLatestTimeline (by decide) (by decide)⟩

/-- C2: a qualifying network completion leaves the category record and
the persisted state map completely unchanged — no field replacement, no
last-updated stamp, no storage write — both when all three observed
header fields are null and when the field-wise merged triple equals the
prior stored triple. -/
theorem c2_unchanged_skips_write (now : Int) (st : RateLimitState) (ev : RateLimitEvent)
    (cat : RateLimitCategory) (hcat : detectRateLimitCategory ev.url = some cat)
    (h : (ev.limit = none ∧ ev.remaining = none ∧ ev.resetAt = none) ∨
         ((st cat).limit = mergeField ev.limit (st cat).limit ∧
          (st cat).remaining = mergeField ev.remaining (st cat).remaining ∧
          (st cat).resetAt = mergeField ev.resetAt (st cat).resetAt)) :
    rateLimitStep now st ev = (st, false) := by
  simp only [rateLimitStep, hcat]
  rcases h with h | h
  · rw [if_pos h]
  · by_cases hnull : ev.limit = none ∧ ev.remaining = none ∧ ev.resetAt = none
    · rw [if_pos hnull]
    · rw [if_neg hnull, if_pos h]

/-- C2 witness: an all-null reading and a merged-equal reading each leave
a concrete prior state untouched with no storage write. -/
theorem c2_unchanged_skips_write_witness :
    detectRateLimitCategory "SearchTimeline" = some RateLimitCategory.searchLatest ∧
    rateLimitStep 7 (fun _ => (⟨some 50, some 10, some 1700000000, none⟩ : RateLimitInfo))
      ⟨"SearchTimeline", none, none, none⟩ =
      ((fun _ => (⟨some 50, some 10, some 1700000000, none⟩ : RateLimitInfo)), false) ∧
    rateLimitStep 7 (fun _ => (⟨some 50, some 10, some 1700000000, none⟩ : RateLimitInfo))
      ⟨"SearchTimeline", some 50, some 10, none⟩ =
      ((fun _ => (⟨some 50, some 10, some 1700000000, none⟩ : RateLimitInfo)), false) :=
  ⟨by decide,
    c2_unchanged_skips_write 7 _ ⟨"SearchTimeline", none, none, none⟩
      RateLimitCategory.searchLatest (by decide) (Or.inl (by decide)),
    c2_unchanged_skips_write 7 _ ⟨"SearchTimeline", some 50, some 10, none⟩
      RateLimitCategory.searchLatest (by decide) (Or.inr (by decide))⟩

/-- C6: the category classifier scans the ordered pattern list and
returns the category of the first entry whose pattern matches the
target; a target containing `HomeLatestTimeline` classifies as the
home-timeline category; a target matching no known pattern classifies as
none (uncategorized), in which case the event is ignored and no
rate-limit state is mutated and nothing is persisted. -/
theorem c6_category_classifier :
    (∀ url, detectRateLimitCategory url = firstMatchingCategory RATE_LIMIT_PATTERNS url) ∧
    detectRateLimitCategory "https://x.com/i/api/graphql/AbCdEf/HomeLatestTimeline" =
      some RateLimitCategory.homeLatestTimeline ∧
    detectRateLimitCategory "https://x.com/i/api/1.1/friends/list.json" = none ∧
    (∀ (now : Int) (st : RateLimitState) (ev : RateLimitEvent),
      detectRateLimitCategory ev.url = none → rateLimitStep now st ev = (st, false)) := by
  refine ⟨?_, by decide, by decide, ?_⟩
  · intro url
    have key : ∀ (l : List (RateLimitCategory × List String)),
        ((l.find? (fun rule => rule.2.any (fun pat => containsCI url pat))).map
          (fun rule => rule.1)) = firstMatchingCategory l url := by
      intro l
      induction l with
      | nil => rfl
      | cons hd tl ih =>
        rcases hd with ⟨c, pats⟩
        by_cases h : pats.any (fun pat => containsCI url pat)
        · simp [firstMatchingCategory, List.find?_cons_of_pos, h]
        · rw [firstMatchingCategory, if_neg (by simpa using h), ← ih,
            List.find?_cons_of_neg]
          simpa using h
    exact key RATE_LIMIT_PATTERNS
  · intro now st ev h
    simp only [rateLimitStep, h]

/-- C6 witness: a concrete uncategorized completion is ignored and
mutates nothing. -/
theorem c6_category_classifier_witness :
    detectRateLimitCategory "https://x.com/i/api/1.1/friends/list.json" = none ∧
    rateLimitStep 3 (fun _ => (⟨none, none, none, none⟩ : RateLimitInfo))
      ⟨"https://x.com/i/api/1.1/friends/list.json", some 9, some 8, some 7⟩ =
      ((fun _ => (⟨none, none, none, none⟩ : RateLimitInfo)), false) :=
  ⟨by decide,
    c6_category_classifier.2.2.2 3 (fun _ => (⟨none, none, none, none⟩ : RateLimitInfo))
      ⟨"https://x.com/i/api/1.1/friends/list.json", some 9, some 8, some 7⟩ (by decide)⟩

theorem screenNameCheck_iff (post : Tweet) (f : FilterRule) :
    screenNameCheck post f = true ↔
      (∀ sn, f.screenName = some sn → ¬ sn = "" →
        ∃ href, authorLink post = some href ∧
          toLowerStr (hrefScreenName href) = toLowerStr sn) := by
  unfold screenNameCheck
  cases hsn : f.screenName with
  | none => simp
  | some sn =>
    by_cases h0 : sn = ""
    · subst h0; simp
    · cases hl : authorLink post with
      | none => simp [h0, hl]
      | some href => simp [h0, hl]

theorem textPatternCheck_iff (post : Tweet) (f : FilterRule) :
    textPatternCheck post f = true ↔
      (∀ pat, f.textPattern = some pat → ¬ pat = "" →
        ∃ re text, compileRegex pat = some re ∧ post.bodyText = some text ∧
          rxTest re text.data = true) := by
  unfold textPatternCheck
  cases htp : f.textPattern with
  | none => simp
  | some pat =>
    by_cases h0 : pat = ""
    · subst h0; simp
    · cases hre : compileRegex pat with
      | none => simp [h0, hre]
      | some re =>
        cases hbt : post.bodyText with
        | none => simp [h0, hre, hbt]
        | some text => simp [h0, hre, hbt]

theorem isRetweetCheck_iff (post : Tweet) (f : FilterRule) :
    isRetweetCheck post f = true ↔ (∀ b, f.isRetweet = some b → b = post.hasSocialContext) := by
  unfold isRetweetCheck
  cases h : f.isRetweet <;> simp

theorem hasMediaCheck_iff (post : Tweet) (f : FilterRule) :
    hasMediaCheck post f = true ↔ (∀ b, f.hasMedia = some b → b = post.hasMediaMarker) := by
  unfold hasMediaCheck
  cases h : f.hasMedia <;> simp

/-- C8: an unprocessed, unhidden item becomes hidden if and only if some
enabled rule matches it; a rule matches exactly when every one of its
defined predicates (case-insensitive author handle, body-text regular
expression, retweet tri-state, has-media tri-state) is satisfied,
undefined predicates being vacuously satisfied; a rule with only text
pattern `(spam|ad)` hides an item whose body contains "spam" and leaves
an item containing neither token untouched; every evaluated item is
marked processed regardless of the match outcome. -/
theorem c8_filter_rule_semantics :
    (∀ (post : Tweet) (f : FilterRule),
      matchesFilter post f = true ↔
        ((∀ sn, f.screenName = some sn → ¬ sn = "" →
            ∃ href, authorLink post = some href ∧
              toLowerStr (hrefScreenName href) = toLowerStr sn) ∧
         (∀ pat, f.textPattern = some pat → ¬ pat = "" →
            ∃ re text, compileRegex pat = some re ∧ post.bodyText = some text ∧
              rxTest re text.data = true) ∧
         (∀ b, f.isRetweet = some b → b = post.hasSocialContext) ∧
         (∀ b, f.hasMedia = some b → b = post.hasMediaMarker))) ∧
    (∀ (filters : List FilterRule) (post : Tweet),
      post.processed = false → post.hidden = false →
        ((filterPost (filters.filter (fun f => f.enabled)) post).hidden = true ↔
          ∃ f ∈ filters, f.enabled = true ∧ matchesFilter post f = true)) ∧
    (∀ (activeFilters : List FilterRule) (post : Tweet),
      (filterPost activeFilters post).processed = post.processed || true) ∧
    (filterPost [spamRule] postSpam).hidden = true ∧
    (filterPost [spamRule] postSpam).processed = true ∧
    (filterPost [spamRule] postClean).hidden = false ∧
    (filterPost [spamRule] postClean).processed = true := by
  refine ⟨?_, ?_, ?_, by decide, by decide, by decide, by decide⟩
  · intro post f
    rw [matchesFilter, Bool.and_eq_true, Bool.and_eq_true, Bool.and_eq_true,
      screenNameCheck_iff, textPatternCheck_iff, isRetweetCheck_iff, hasMediaCheck_iff]
    tauto
  · intro filters post hp hh
    simp [filterPost, hp, hh, List.any_eq_true, List.mem_filter, and_assoc]
  · intro activeFilters post
    by_cases hp : post.processed <;> simp [filterPost, hp]

/-- C8 witness: the hidden-iff equivalence applied to the concrete spam
rule and spam-containing item. -/
theorem c8_filter_rule_semantics_witness :
    (postSpam.processed = false) ∧ (postSpam.hidden = false) ∧
    ((filterPost ([spamRule].filter (fun f => f.enabled)) postSpam).hidden = true ↔
      ∃ f ∈ [spamRule], f.enabled = true ∧ matchesFilter postSpam f = true) :=
  ⟨by decide, by decide,
    c8_filter_rule_semantics.2.1 [spamRule] postSpam (by decide) (by decide)⟩

/-- C9: a filter rule whose stored text pattern fails regular-expression
construction is treated as non-matching for every item — it never causes
any item to be hidden, evaluation is total (nothing throws), and removing
the rule from the active list changes nothing about the evaluation of the
other rules and the remaining items. -/
theorem c9_invalid_regex_fail_closed (f : FilterRule) (pat : String)
    (hp : f.textPattern = some pat) (h0 : ¬ pat = "") (hre : compileRegex pat = none) :
    (∀ post : Tweet, matchesFilter post f = false) ∧
    (∀ (a b : List FilterRule) (post : Tweet),
      filterPost (a ++ f :: b) post = filterPost (a ++ b) post) := by
  have ht : ∀ post : Tweet, textPatternCheck post f = false := by
    intro post
    unfold textPatternCheck
    rw [hp]
    simp [h0, hre]
  have hm : ∀ post : Tweet, matchesFilter post f = false := by
    intro post
    simp [matchesFilter, ht post]
  refine ⟨hm, ?_⟩
  intro a b post
  unfold filterPost
  by_cases hproc : post.processed
  · simp [hproc]
  · simp [hproc, List.any_append, List.any_cons, hm post]

/-- C9 witness: the invalid pattern `((` never hides a concrete item and
its rule can be dropped without effect. -/
theorem c9_invalid_regex_fail_closed_witness :
    (⟨"r2", "bad", true, none, some "((", none, none⟩ : FilterRule).textPattern = some "((" ∧
    ¬ ("((" : String) = "" ∧
    compileRegex "((" = none ∧
    matchesFilter postClean ⟨"r2", "bad", true, none, some "((", none, none⟩ = false ∧
    filterPost [⟨"r2", "bad", true, none, some "((", none, none⟩] postClean =
      filterPost [] postClean :=
  ⟨rfl, by decide, by decide,
    (c9_invalid_regex_fail_closed ⟨"r2", "bad", true, none, some "((", none, none⟩ "(("
      rfl (by decide) (by decide)).1 postClean,
    (c9_invalid_regex_fail_closed ⟨"r2", "bad", true, none, some "((", none, none⟩ "(("
      rfl (by decide) (by decide)).2 [] [] postClean⟩

theorem namedResolve_state (env : CheckEnv) (st : WatcherState) (u ph fb : String)
    (ex : Option String → Option String) (dt : IframeDoc → Nat → Option String)
    (st' : WatcherState) (t : String) (ds : List Nat)
    (h : namedResolve env st u ph ex dt fb = some (st', t, ds)) :
    st'.lastUrl = st.lastUrl ∧ st'.lastRecorded = st.lastRecorded := by
  unfold namedResolve at h
  cases h1 : truthyName (lookupName st.resolvedNames u) with
  | some cached =>
    simp only [h1, Option.some.injEq, Prod.mk.injEq] at h
    obtain ⟨h5, -, -⟩ := h
    subst h5
    exact ⟨rfl, rfl⟩
  | none =>
    simp only [h1] at h
    cases h2 : storageLookup env ph u with
    | some tt =>
      simp only [h2, Option.some.injEq, Prod.mk.injEq] at h
      obtain ⟨h5, -, -⟩ := h
      subst h5
      exact ⟨rfl, rfl⟩
    | none =>
      simp only [h2] at h
      cases h3 : env.doc with
      | none => simp [h3] at h
      | some d =>
        simp only [h3, Option.some.injEq, Prod.mk.injEq] at h
        obtain ⟨h5, -, -⟩ := h
        cases h4 : (runNameRetry ex (dt d) fb).cacheName with
        | none => rw [h4] at h5; subst h5; exact ⟨rfl, rfl⟩
        | some nm => rw [h4] at h5; subst h5; exact ⟨rfl, rfl⟩

theorem recordResolve_state (env : CheckEnv) (st : WatcherState) (u fb : String) :
    (recordResolve env st u fb).1.lastUrl = st.lastUrl ∧
    (recordResolve env st u fb).1.lastRecorded = st.lastRecorded := by
  unfold recordResolve listBranch communityBranch profileBranch
  split
  next r h =>
    rcases r with ⟨st', t, ds⟩
    split at h
    · exact namedResolve_state _ _ _ _ _ _ _ _ _ _ h
    · exact absurd h (by simp)
  next h0 =>
    split
    next r h =>
      rcases r with ⟨st', t, ds⟩
      split at h
      · exact namedResolve_state _ _ _ _ _ _ _ _ _ _ h
      · exact absurd h (by simp)
    next h0b =>
      split
      next r h =>
        rcases r with ⟨st', t, ds⟩
        split at h
        · exact namedResolve_state _ _ _ _ _ _ _ _ _ _ h
        · exact absurd h (by simp)
      next h0c => exact ⟨rfl, rfl⟩

theorem checkUrl_emit_shape (env : CheckEnv) (st : WatcherState) :
    (checkUrl env st).emits = [] ∨
    ∃ u t, env.currentUrl = some u ∧ shouldRecordUrl u = true ∧
      (checkUrl env st).emits = [(u, t)] := by
  unfold checkUrl
  cases hcu : env.currentUrl with
  | none => left; rfl
  | some u =>
    dsimp only
    by_cases h1 : u = ""
    · left; rw [if_pos h1]
    · rw [if_neg h1]
      by_cases h2 : u = st.lastUrl
      · left; rw [if_pos h2]
      · rw [if_neg h2]
        by_cases h3 : shouldRecordUrl u
        · rw [if_pos h3]
          by_cases h4 : u = st.lastRecorded
          · left; rw [if_pos h4]
          · rw [if_neg h4]
            right
            exact ⟨u, _, rfl, h3, rfl⟩
        · left
          rw [if_neg h3]

theorem checkUrl_lastUrl (env : CheckEnv) (st : WatcherState) (u : String)
    (hcu : env.currentUrl = some u) :
    (checkUrl env st).state.lastUrl = u ∨ u = "" := by
  by_cases h1 : u = ""
  · right; exact h1
  · left
    unfold checkUrl
    rw [hcu]
    dsimp only
    rw [if_neg h1]
    by_cases h2 : u = st.lastUrl
    · rw [if_pos h2]; exact h2.symm
    · rw [if_neg h2]
      by_cases h3 : shouldRecordUrl u
      · rw [if_pos h3]
        by_cases h4 : u = st.lastRecorded
        · rw [if_pos h4]
        · rw [if_neg h4]
          exact (recordResolve_state env { st with lastUrl := u, lastRecorded := u }
            u (getTitleFromUrl u)).1
      · rw [if_neg h3]

/-- C3: the navigation watcher delivers `onUrlChange` only for URLs on
the record whitelist (never for a URL outside it), each `checkUrl`
invocation delivers at most one navigation result, and when the same URL
is observed twice in a row (an event trigger followed by a poll tick) the
second invocation delivers nothing, so the URL fires at most once. -/
theorem c3_navigation_watcher :
    (∀ (env : CheckEnv) (st : WatcherState) (e : String × String),
      e ∈ (checkUrl env st).emits → shouldRecordUrl e.1 = true) ∧
    (∀ (env : CheckEnv) (st : WatcherState), (checkUrl env st).emits.length ≤ 1) ∧
    (∀ (env env2 : CheckEnv) (st : WatcherState) (u : String),
      env.currentUrl = some u → env2.currentUrl = some u →
      (checkUrl env2 (checkUrl env st).state).emits = []) := by
  refine ⟨?_, ?_, ?_⟩
  · intro env st e he
    rcases checkUrl_emit_shape env st with h | ⟨u, t, -, hw, h⟩
    · rw [h] at he; simp at he
    · rw [h] at he
      simp only [List.mem_singleton] at he
      rw [he]
      exact hw
  · intro env st
    rcases checkUrl_emit_shape env st with h | ⟨u, t, -, -, h⟩ <;> simp [h]
  · intro env env2 st u h1 h2
    rcases checkUrl_lastUrl env st u h1 with hl | he
    · generalize hS : (checkUrl env st).state = S at hl ⊢
      unfold checkUrl
      rw [h2]
      dsimp only
      by_cases h0 : u = ""
      · rw [if_pos h0]
      · rw [if_neg h0, if_pos hl.symm]
    · generalize hS : (checkUrl env st).state = S
      unfold checkUrl
      rw [h2]
      dsimp only
      rw [if_pos he]

/-- C3 witness: a concrete whitelisted navigation delivered once, and a
concrete second observation of the same URL delivering nothing. -/
theorem c3_navigation_watcher_witness :
    shouldRecordUrl "https://x.com/home" = true ∧
    (checkUrl ⟨some "https://x.com/home", [], none, none⟩ ⟨"", "", []⟩).emits =
      [("https://x.com/home", "Home")] ∧
    (checkUrl ⟨some "https://x.com/home", [], none, none⟩
      (checkUrl ⟨some "https://x.com/home", [], none, none⟩ ⟨"", "", []⟩).state).emits = [] :=
  ⟨c3_navigation_watcher.1 ⟨some "https://x.com/home", [], none, none⟩ ⟨"", "", []⟩
      ("https://x.com/home", "Home") (by decide),
   by decide,
   c3_navigation_watcher.2.2 ⟨some "https://x.com/home", [], none, none⟩
      ⟨some "https://x.com/home", [], none, none⟩ ⟨"", "", []⟩ "https://x.com/home" rfl rfl⟩

/-- C5: resolving a list URL with no cached name performs at most 5
DOM-extraction attempts, the first after an initial 500 ms delay and the
later ones after failure delays of attempt × 300 ms (300/600/900/1200);
an attempt that finds the landmark text `My List@someuser` resolves the
title `My List` (the portion before the literal `@`, trimmed) and caches
it; when all 5 attempts fail the deterministic URL-derived default title
is delivered instead. -/
theorem c5_list_retry_resolution :
    (∀ (dom : Nat → Option String) (fb : String), ∃ n, 1 ≤ n ∧ n ≤ 5 ∧
      (runNameRetry getListName dom fb).delays = List.take n [500, 300, 600, 900, 1200]) ∧
    (∀ (dom : Nat → Option String) (fb : String),
      (∀ k, 1 ≤ k → k ≤ 5 → truthyName (getListName (dom k)) = none) →
      runNameRetry getListName dom fb = ⟨fb, none, [500, 300, 600, 900, 1200]⟩) ∧
    getListName (some "My List@someuser") = some "My List" ∧
    (checkUrl listScrapeEnv ⟨"", "", []⟩).emits = [(listUrl, "My List")] ∧
    (checkUrl listScrapeEnv ⟨"", "", []⟩).delays = [500] ∧
    (checkUrl listScrapeEnv ⟨"", "", []⟩).state.resolvedNames = [(listUrl, "My List")] ∧
    (checkUrl listFailEnv ⟨"", "", []⟩).emits = [(listUrl, "List")] ∧
    (checkUrl listFailEnv ⟨"", "", []⟩).delays = [500, 300, 600, 900, 1200] ∧
    getTitleFromUrl listUrl = "List" := by
  refine ⟨?_, ?_, by decide, by decide, by decide, by decide, by decide, by decide, by decide⟩
  · intro dom fb
    cases h1 : truthyName (getListName (dom 1)) with
    | some n1 => exact ⟨1, by omega, by omega, by simp [runNameRetry, retryChain, h1]⟩
    | none =>
      cases h2 : truthyName (getListName (dom 2)) with
      | some n2 => exact ⟨2, by omega, by omega, by simp [runNameRetry, retryChain, h1, h2]⟩
      | none =>
        cases h3 : truthyName (getListName (dom 3)) with
        | some n3 =>
          exact ⟨3, by omega, by omega, by simp [runNameRetry, retryChain, h1, h2, h3]⟩
        | none =>
          cases h4 : truthyName (getListName (dom 4)) with
          | some n4 =>
            exact ⟨4, by omega, by omega, by simp [runNameRetry, retryChain, h1, h2, h3, h4]⟩
          | none =>
            cases h5 : truthyName (getListName (dom 5)) with
            | some n5 =>
              exact ⟨5, by omega, by omega,
                by simp [runNameRetry, retryChain, h1, h2, h3, h4, h5]⟩
            | none =>
              exact ⟨5, by omega, by omega,
                by simp [runNameRetry, retryChain, h1, h2, h3, h4, h5]⟩
  · intro dom fb h
    simp [runNameRetry, retryChain, h 1 (by omega) (by omega), h 2 (by omega) (by omega),
      h 3 (by omega) (by omega), h 4 (by omega) (by omega), h 5 (by omega) (by omega)]

/-- C5 witness: the exhaustion case applied to the always-failing
document. -/
theorem c5_list_retry_resolution_witness :
    runNameRetry getListName (fun _ => none) "List" =
      ⟨"List", none, [500, 300, 600, 900, 1200]⟩ :=
  c5_list_retry_resolution.2.1 (fun _ => none) "List" (fun _ _ _ => rfl)

/-- C4 counterexample: the claim defines the storage-path placeholder as
the URL-derived default title of the route kind.  For the list URL the
URL-derived default is `List`, yet a persisted column whose stored title
is exactly `List` (with matching URL, no memory-cache entry, and a
document exposing the real name `Actual Name`) IS returned by the
storage path — with no DOM access and no delay — because the code
compares against the fixed literal `リスト`, not against the URL-derived
default.  Under the claim the resolver would have had to scrape the DOM
(yielding `Actual Name`) instead of returning the stored `List`. -/
theorem c4_counterexample :
    storedDefaultColumn.title = getTitleFromUrl listUrl ∧
    truthyName (lookupName ([] : List (String × String)) listUrl) = none ∧
    getListName (some "Actual Name@user") = some "Actual Name" ∧
    (checkUrl storedDefaultEnv ⟨"", "", []⟩).emits = [(listUrl, "List")] ∧
    (checkUrl storedDefaultEnv ⟨"", "", []⟩).delays = [] := by
  refine ⟨by decide, by decide, by decide, by decide, by decide⟩

/-- C4 (amended): with the placeholder being the fixed per-route literal
(`リスト` for lists, `コミュニティ` for communities, `ユーザープロフィール`
for profiles) rather than the URL-derived default: a memory-cache hit for
the exact URL returns the cached title immediately with no DOM access and
no delay; otherwise the persisted column's stored title is returned and
seeded into the memory cache exactly when the column id is truthy and
found, its current URL equals the URL being resolved, and its stored
title differs from that fixed placeholder — which for the list route is
not the URL-derived default `List`. -/
theorem c4_amended_title_resolution :
    (∀ (env : CheckEnv) (st : WatcherState) (u ph fb : String)
        (ex : Option String → Option String) (dt : IframeDoc → Nat → Option String) cached,
      truthyName (lookupName st.resolvedNames u) = some cached →
      namedResolve env st u ph ex dt fb = some (st, cached, [])) ∧
    (∀ (env : CheckEnv) (st : WatcherState) (u ph fb t : String)
        (ex : Option String → Option String) (dt : IframeDoc → Nat → Option String),
      truthyName (lookupName st.resolvedNames u) = none →
      storageLookup env ph u = some t →
      namedResolve env st u ph ex dt fb =
        some ({ st with resolvedNames := insertName st.resolvedNames u t }, t, [])) ∧
    (∀ (env : CheckEnv) (ph u t : String),
      storageLookup env ph u = some t ↔
        ∃ cid col, env.columnId = some cid ∧ ¬ cid = "" ∧
          env.columns.find? (fun c => c.id = cid) = some col ∧
          ¬ col.title = ph ∧ col.currentUrl = u ∧ t = col.title) ∧
    (∀ (env : CheckEnv) (st : WatcherState) (u fb : String),
      containsStr u "/i/lists/" = true →
      listBranch env st u fb =
        namedResolve env st u "リスト" getListName (fun d => d.topNavBarText) fb) ∧
    ¬ ("リスト" : String) = getTitleFromUrl listUrl := by
  refine ⟨?_, ?_, ?_, ?_, by decide⟩
  · intro env st u ph fb ex dt cached h
    unfold namedResolve
    rw [h]
  · intro env st u ph fb t ex dt h1 h2
    unfold namedResolve
    rw [h1]
    dsimp only
    rw [h2]
  · intro env ph u t
    unfold storageLookup
    cases hc : env.columnId with
    | none => simp
    | some cid =>
      dsimp only
      by_cases h0 : cid = ""
      · simp [h0]
      · rw [if_neg h0]
        cases hf : env.columns.find? (fun c => c.id = cid) with
        | none => simp [h0, hf]
        | some col =>
          dsimp only
          by_cases hcond : ¬ col.title = ph ∧ col.currentUrl = u
          · rw [if_pos hcond]
            simp only [Option.some.injEq]
            constructor
            · rintro rfl
              exact ⟨cid, col, rfl, h0, hf, hcond.1, hcond.2, rfl⟩
            · rintro ⟨cid2, col2, hcid2, -, hf2, -, -, ht⟩
              subst hcid2
              rw [hf] at hf2
              injection hf2 with hf2
              subst hf2
              exact ht.symm
          · rw [if_neg hcond]
            constructor
            · intro h; cases h
            · rintro ⟨cid2, col2, hcid2, -, hf2, hti, hcu, ht⟩
              injection hcid2 with hcid2
              subst hcid2
              rw [hf] at hf2
              injection hf2 with hf2
              subst hf2
              exact absurd ⟨hti, hcu⟩ hcond
  · intro env st u fb h
    unfold listBranch
    rw [if_pos h]

/-- C4 (amended) witness: a persisted list column titled `My Cool List`
(different from the placeholder `リスト`) with matching URL is returned
and seeded into the memory cache. -/
theorem c4_amended_title_resolution_witness :
    truthyName (lookupName (⟨"", "", []⟩ : WatcherState).resolvedNames listUrl) = none ∧
    storageLookup ⟨some listUrl, [⟨"c1", "My Cool List", listUrl⟩], some "c1", none⟩
      "リスト" listUrl = some "My Cool List" ∧
    namedResolve ⟨some listUrl, [⟨"c1", "My Cool List", listUrl⟩], some "c1", none⟩
      ⟨"", "", []⟩ listUrl "リスト" getListName (fun d => d.topNavBarText) "List" =
      some (⟨"", "", [(listUrl, "My Cool List")]⟩, "My Cool List", []) :=
  ⟨by decide, by decide,
    c4_amended_title_resolution.2.1
      ⟨some listUrl, [⟨"c1", "My Cool List", listUrl⟩], some "c1", none⟩
      ⟨"", "", []⟩ listUrl "リスト" "List" "My Cool List" getListName
      (fun d => d.topNavBarText) (by decide) (by decide)⟩

theorem startsL_iff (pre s : List Char) : startsL pre s = true ↔ ∃ t, s = pre ++ t := by
  induction pre generalizing s with
  | nil => simp [startsL]
  | cons a as ih =>
    cases s with
    | nil =>
      rw [startsL]
      constructor
      · intro hFalse; exact absurd hFalse (by simp)
      · rintro ⟨t, ht⟩; exact absurd ht (by simp)
    | cons b bs =>
      by_cases h : a = b
      · subst h
        rw [startsL, if_pos rfl, ih]
        constructor
        · rintro ⟨t, rfl⟩; exact ⟨t, rfl⟩
        · rintro ⟨t, ht⟩
          rw [List.cons_append] at ht
          injection ht with h1 h2
          exact ⟨t, h2⟩
      · rw [startsL, if_neg h]
        constructor
        · intro hFalse; exact absurd hFalse (by simp)
        · rintro ⟨t, ht⟩
          rw [List.cons_append] at ht
          injection ht with h1 h2
          exact absurd h1.symm h

theorem all_drop_of_all (l : List Char) (n : Nat) (f : Char → Bool)
    (h : ∀ c ∈ l, f c = true) : (l.drop n).all f = true := by
  rw [List.all_eq_true]
  intro c hc
  exact h c (List.mem_of_mem_drop hc)

theorem jsDotB_of_good (c : Char) (h : goodPathChar c = true) : jsDotB c = true := by
  have h1 : 0x20 < c.toNat ∧ c.toNat < 0x7f := by
    simpa [goodPathChar] using h
  simp only [jsDotB, Bool.not_eq_true', Bool.or_eq_false_iff, decide_eq_false_iff_not]
  omega

theorem hexDigitChar_good (n : Nat) : goodPathChar (hexDigitChar n) = true := by
  unfold hexDigitChar
  split <;> decide

theorem encPathChar_good (c d : Char) (h : d ∈ encPathChar c) : goodPathChar d = true := by
  unfold encPathChar at h
  by_cases hk : keepPathChar c = true
  · rw [if_pos hk] at h
    simp only [List.mem_singleton] at h
    subst h
    have hk2 : 0x20 < d.toNat ∧ d.toNat < 0x7f := by
      unfold keepPathChar at hk
      simp only [Bool.and_eq_true, decide_eq_true_eq] at hk
      exact ⟨hk.1.1, hk.1.2⟩
    simp [goodPathChar, hk2.1, hk2.2]
  · rw [if_neg hk] at h
    simp only [List.mem_cons, List.mem_singleton, List.not_mem_nil, or_false] at h
    rcases h with rfl | rfl | rfl
    · decide
    · exact hexDigitChar_good _
    · exact hexDigitChar_good _

theorem encodePath_good (l : List Char) (c : Char) (h : c ∈ encodePath l) :
    goodPathChar c = true := by
  unfold encodePath at h
  rw [List.mem_flatten] at h
  obtain ⟨sub, hsub, hc⟩ := h
  rw [List.mem_map] at hsub
  obtain ⟨a, -, rfl⟩ := hsub
  exact encPathChar_good a c hc

theorem parseUrl_good (url : String) (parts : UrlParts) (h : parseUrl url = some parts) :
    ∀ c ∈ parts.pathname, goodPathChar c = true := by
  unfold parseUrl at h
  split at h
  · exact absurd h (by simp)
  · split at h
    · split at h
      · dsimp only at h
        split at h
        · exact absurd h (by simp)
        · split at h
          · injection h with h
            subst h
            intro c hc
            exact encodePath_good _ c hc
          · injection h with h
            subst h
            intro c hc
            simp only [List.mem_singleton] at hc
            subst hc
            decide
          · injection h with h
            subst h
            intro c hc
            simp only [List.mem_singleton] at hc
            subst hc
            decide
      · exact absurd h (by simp)
    · exact absurd h (by simp)

theorem reMessages_eq (p : List Char) (hg : ∀ c ∈ p, goodPathChar c = true) :
    reMessages p = (decide (p = "/messages".data) || startsL "/messages/".data p) := by
  unfold reMessages
  cases hs : startsL "/messages/".data p
  · simp
  · have hall : (p.drop 10).all jsDotB = true :=
      all_drop_of_all p 10 _ (fun c hc => jsDotB_of_good c (hg c hc))
    simp [hall]

theorem reExplore_eq (p : List Char) (hg : ∀ c ∈ p, goodPathChar c = true) :
    reExplore p = (decide (p = "/explore".data) || startsL "/explore/".data p) := by
  unfold reExplore
  cases hs : startsL "/explore/".data p
  · simp
  · have hall : (p.drop 9).all jsDotB = true :=
      all_drop_of_all p 9 _ (fun c hc => jsDotB_of_good c (hg c hc))
    simp [hall]

theorem classify_ne_unknown_iff (p : List Char) :
    ¬ getColumnTypeFromPath p = ColumnType.unknown ↔
      (p = "/home".data ∨ p = "/notifications".data ∨
       (p = "/messages".data ∨ startsL "/messages/".data p = true) ∨
       p = "/search".data ∨ reLists p = true ∨
       (p = "/explore".data ∨ startsL "/explore/".data p = true) ∨
       p = "/i/bookmarks".data ∨ reCommunities p = true ∨ reHandle p = true) := by
  unfold getColumnTypeFromPath
  by_cases g1 : p = "/home".data
  · rw [if_pos g1]; exact iff_of_true (by decide) (by tauto)
  · rw [if_neg g1]
    by_cases g2 : p = "/notifications".data
    · rw [if_pos g2]; exact iff_of_true (by decide) (by tauto)
    · rw [if_neg g2]
      by_cases g3 : p = "/messages".data ∨ startsL "/messages/".data p = true
      · rw [if_pos g3]; exact iff_of_true (by decide) (by tauto)
      · rw [if_neg g3]
        by_cases g4 : p = "/search".data
        · rw [if_pos g4]; exact iff_of_true (by decide) (by tauto)
        · rw [if_neg g4]
          by_cases g5 : reLists p = true
          · rw [if_pos g5]; exact iff_of_true (by decide) (by tauto)
          · rw [if_neg g5]
            by_cases g6 : p = "/explore".data ∨ startsL "/explore/".data p = true
            · rw [if_pos g6]; exact iff_of_true (by decide) (by tauto)
            · rw [if_neg g6]
              by_cases g7 : p = "/i/bookmarks".data
              · rw [if_pos g7]; exact iff_of_true (by decide) (by tauto)
              · rw [if_neg g7]
                by_cases g8 : reCommunities p = true
                · rw [if_pos g8]; exact iff_of_true (by decide) (by tauto)
                · rw [if_neg g8]
                  by_cases g9 : reHandle p = true
                  · rw [if_pos g9]; exact iff_of_true (by decide) (by tauto)
                  · rw [if_neg g9]
                    exact iff_of_false (by simp) (by tauto)

theorem recordPath_iff_props (p : List Char) (hg : ∀ c ∈ p, goodPathChar c = true) :
    shouldRecordPath p = true ↔
      (p = "/home".data ∨ p = "/notifications".data ∨
       (p = "/messages".data ∨ startsL "/messages/".data p = true) ∨
       p = "/search".data ∨ reLists p = true ∨
       (p = "/explore".data ∨ startsL "/explore/".data p = true) ∨
       p = "/i/bookmarks".data ∨ reCommunities p = true ∨ reHandle p = true) := by
  unfold shouldRecordPath
  rw [reMessages_eq p hg, reExplore_eq p hg]
  simp only [Bool.or_eq_true, decide_eq_true_eq]
  tauto

/-- C10: for every URL string the record-whitelist predicate accepts the
URL exactly when the route classifier assigns it a route kind other than
`unknown`; on URLs the parser rejects, both reject without raising (both
functions are total and yield `false` / `unknown`). -/
theorem c10_classifiers_agree :
    (∀ url, shouldRecordUrl url = true ↔ ¬ getColumnTypeFromUrl url = ColumnType.unknown) ∧
    (∀ url, parseUrl url = none →
      shouldRecordUrl url = false ∧ getColumnTypeFromUrl url = ColumnType.unknown) := by
  constructor
  · intro url
    unfold shouldRecordUrl getColumnTypeFromUrl
    cases hp : parseUrl url with
    | none => simp
    | some parts =>
      dsimp only
      rw [recordPath_iff_props parts.pathname (parseUrl_good url parts hp),
        classify_ne_unknown_iff]
  · intro url h
    unfold shouldRecordUrl getColumnTypeFromUrl
    rw [h]
    exact ⟨rfl, rfl⟩

/-- C10 witness: agreement evaluated on a whitelisted URL, a
non-whitelisted URL and a malformed URL. -/
theorem c10_classifiers_agree_witness :
    (shouldRecordUrl "https://x.com/i/lists/99" = true ↔
      ¬ getColumnTypeFromUrl "https://x.com/i/lists/99" = ColumnType.unknown) ∧
    (shouldRecordUrl "https://x.com/foo/status/1" = true ↔
      ¬ getColumnTypeFromUrl "https://x.com/foo/status/1" = ColumnType.unknown) ∧
    parseUrl "::not a url::" = none ∧
    shouldRecordUrl "::not a url::" = false ∧
    getColumnTypeFromUrl "::not a url::" = ColumnType.unknown :=
  ⟨c10_classifiers_agree.1 "https://x.com/i/lists/99",
   c10_classifiers_agree.1 "https://x.com/foo/status/1",
   by decide,
   (c10_classifiers_agree.2 "::not a url::" (by decide)).1,
   (c10_classifiers_agree.2 "::not a url::" (by decide)).2⟩

theorem reLists_iff (p : List Char) (hg : ∀ c ∈ p, goodPathChar c = true) :
    reLists p = true ↔ ∃ i, i ≠ [] ∧ p = "/i/lists/".data ++ i := by
  unfold reLists
  simp only [Bool.and_eq_true, decide_eq_true_eq]
  constructor
  · rintro ⟨⟨hs, hlen⟩, hall⟩
    obtain ⟨t, rfl⟩ := (startsL_iff _ _).mp hs
    refine ⟨t, ?_, rfl⟩
    rintro rfl
    rw [List.append_nil] at hlen
    exact absurd hlen (by decide)
  · rintro ⟨i, hne, rfl⟩
    refine ⟨⟨(startsL_iff _ _).mpr ⟨i, rfl⟩, ?_⟩, ?_⟩
    · rw [List.length_append, show ("/i/lists/".data).length = 9 from rfl]
      have := List.length_pos.mpr hne
      omega
    · exact all_drop_of_all _ _ _ (fun c hc => jsDotB_of_good c (hg c hc))

theorem reCommunities_iff (p : List Char) (hg : ∀ c ∈ p, goodPathChar c = true) :
    reCommunities p = true ↔ ∃ i, i ≠ [] ∧ p = "/i/communities/".data ++ i := by
  unfold reCommunities
  simp only [Bool.and_eq_true, decide_eq_true_eq]
  constructor
  · rintro ⟨⟨hs, hlen⟩, hall⟩
    obtain ⟨t, rfl⟩ := (startsL_iff _ _).mp hs
    refine ⟨t, ?_, rfl⟩
    rintro rfl
    rw [List.append_nil] at hlen
    exact absurd hlen (by decide)
  · rintro ⟨i, hne, rfl⟩
    refine ⟨⟨(startsL_iff _ _).mpr ⟨i, rfl⟩, ?_⟩, ?_⟩
    · rw [List.length_append, show ("/i/communities/".data).length = 15 from rfl]
      have := List.length_pos.mpr hne
      omega
    · exact all_drop_of_all _ _ _ (fun c hc => jsDotB_of_good c (hg c hc))

theorem reHandle_iff (p : List Char) :
    reHandle p = true ↔ ∃ h, 1 ≤ h.length ∧ h.length ≤ 15 ∧
      (∀ c ∈ h, isWordChar c = true) ∧ p = '/' :: h := by
  cases p with
  | nil =>
    constructor
    · intro hFalse; exact absurd hFalse (by simp [reHandle])
    · rintro ⟨h, -, -, -, ht⟩; exact absurd ht (by simp)
  | cons c rest =>
    simp only [reHandle, Bool.and_eq_true, decide_eq_true_eq, List.all_eq_true]
    constructor
    · rintro ⟨⟨⟨hc, h1⟩, h2⟩, h3⟩
      exact ⟨rest, h1, h2, h3, by rw [hc]⟩
    · rintro ⟨h, h1, h2, h3, heq⟩
      injection heq with e1 e2
      subst e1
      subst e2
      exact ⟨⟨⟨rfl, h1⟩, h2⟩, h3⟩

theorem recordPath_iff_spec (p : List Char) (hg : ∀ c ∈ p, goodPathChar c = true) :
    shouldRecordPath p = true ↔ SpecWhitelistShape p := by
  rw [recordPath_iff_props p hg]
  unfold SpecWhitelistShape
  rw [startsL_iff "/messages/".data p, startsL_iff "/explore/".data p,
    reLists_iff p hg, reCommunities_iff p hg, reHandle_iff p]

/-- C7: the record-whitelist predicate accepts exactly the URLs whose
parsed path has one of the listed shapes — exact paths `/home`,
`/notifications`, `/search`, `/i/bookmarks`; prefix shapes `/messages`
and `/explore` with optional sub-paths; `/i/lists/<id>` and
`/i/communities/<id>` with a non-empty id; and a single path segment of
1–15 alphanumeric/underscore characters — while a URL the parser rejects
yields `false` (the predicate is total, so nothing is raised). -/
theorem c7_record_whitelist :
    (∀ url, shouldRecordUrl url = true ↔
      ∃ parts, parseUrl url = some parts ∧ SpecWhitelistShape parts.pathname) ∧
    (∀ url, parseUrl url = none → shouldRecordUrl url = false) := by
  constructor
  · intro url
    unfold shouldRecordUrl
    cases hp : parseUrl url with
    | none =>
      constructor
      · intro hFalse; exact absurd hFalse (by simp)
      · rintro ⟨parts, hp2, -⟩; exact absurd hp2 (by simp)
    | some parts =>
      dsimp only
      rw [recordPath_iff_spec parts.pathname (parseUrl_good url parts hp)]
      constructor
      · intro h; exact ⟨parts, rfl, h⟩
      · rintro ⟨parts2, hp2, h2⟩
        injection hp2 with e
        subst e
        exact h2
  · intro url h
    unfold shouldRecordUrl
    rw [h]

/-- C7 witness: the equivalence applied to a profile-handle URL, and the
malformed-URL case applied to a concrete unparsable string. -/
theorem c7_record_whitelist_witness :
    (shouldRecordUrl "https://x.com/some_user" = true ↔
      ∃ parts, parseUrl "https://x.com/some_user" = some parts ∧
        SpecWhitelistShape parts.pathname) ∧
    parseUrl "::not a url::" = none ∧
    shouldRecordUrl "::not a url::" = false :=
  ⟨c7_record_whitelist.1 "https://x.com/some_user",
   by decide,
   c7_record_whitelist.2 "::not a url::" (by decide)⟩

end TwitamaModoki
